import Mathlib

/-!
Shallow embedding of the wikitext table-extraction and row-classification
core of scripts/download_wiki_plates.py, together with proofs of the
behavioural properties claimed for it.  Strings are processed as `List Char`;
the Python regexes are embedded as explicit left-to-right scanners with the
same matching semantics.
-/

/-- The character class `[A-Z]` of the code-capture regex. -/
def isAZ (c : Char) : Bool := 'A' ≤ c && c ≤ 'Z'

/-- The character class `[^|\]]` of the filename-capture regex. -/
def fileChar (c : Char) : Bool := c != '|' && c != ']'

/-- Whitespace stripped by Python's `str.strip()` (ASCII/Latin-1 range). -/
def isPyWS (c : Char) : Bool :=
  c == ' ' || c == '\t' || c == '\n' || c == '\r' || c == '\x0b' || c == '\x0c' ||
  c == '\x1c' || c == '\x1d' || c == '\x1e' || c == '\x1f' || c == '\x85' || c == '\xa0'

/-- Python `str.strip()`: remove leading and trailing whitespace. -/
def pyStrip (l : List Char) : List Char :=
  ((l.dropWhile isPyWS).reverse.dropWhile isPyWS).reverse

/-- Python `str.lower()` (ASCII case folding, as used on the ASCII data here). -/
def lowerList (l : List Char) : List Char := l.map Char.toLower

/-- Python's substring test `pat in hay`. -/
def containsSub (hay pat : List Char) : Bool :=
  pat.isPrefixOf hay ||
    match hay with
    | [] => false
    | _ :: t => containsSub t pat

/-- `strip_patterns` from `_parse_table_row`: substrings marking a
decorative strip/euroband image. -/
def strip_patterns : List String :=
  ["euroband", "eurobamd",
   "-band.", "band.png", "band.svg",
   "section-with", "section_with", "EU-section",
   "Non-EU-section", "Identifier", "Number Plate Band",
   "Blank Rear Identifier"]

/-- `any(p.lower() in filename_clean.lower() for p in strip_patterns)`. -/
def is_strip (filename : List Char) : Bool :=
  strip_patterns.any (fun p => containsSub (lowerList filename) (lowerList p.data))

/-- The candidate-selection loop of `_parse_table_row`: strip each filename,
skip it when the blocklist matches, and keep the first survivor. -/
def pickExample : List (List Char) → Option (List Char)
  | [] => none
  | f :: rest =>
    if is_strip (pyStrip f) then pickExample rest else some (pyStrip f)

/-- Literal head of the code-link regex
`\[\[Vehicle registration plates of [^|]+\|([A-Z]+)\]\]`. -/
def codePre : List Char := "[[Vehicle registration plates of ".data

/-- Attempt the code-link regex at the head of `l`; on success return the
captured `[A-Z]+` label.  `[^|]+` must be non-empty and run to the first
`|`, then the capture must be a non-empty uppercase run followed by `]]`. -/
def tryCodeAt (l : List Char) : Option (List Char) :=
  if codePre.isPrefixOf l then
    match (l.drop codePre.length).takeWhile (fun c => c != '|'),
          (l.drop codePre.length).dropWhile (fun c => c != '|') with
    | [], _ => none
    | _ :: _, [] => none
    | _ :: _, _ :: rest3 =>
      match rest3.takeWhile isAZ, rest3.dropWhile isAZ with
      | [], _ => none
      | c0 :: cs, rest4 =>
        if [']', ']'].isPrefixOf rest4 then some (c0 :: cs) else none
  else none

/-- `re.search` for the code-link regex: try every position left to right
and return the first capture. -/
def extractCode : List Char → Option (List Char)
  | [] => none
  | c :: rest =>
    match tryCodeAt (c :: rest) with
    | some code => some code
    | none => extractCode rest

/-- Literal head `[[File:` of the file-reference regex. -/
def filePre : List Char := "[[File:".data

/-- Literal head `[[Image:` of the file-reference regex. -/
def imagePre : List Char := "[[Image:".data

/-- Attempt the regex `\[\[(?:File|Image):([^|\]]+)` at the head of `l`;
on success return the capture and the rest of the input after the match. -/
def tryFileAt (l : List Char) : Option (List Char × List Char) :=
  match (if filePre.isPrefixOf l then some (l.drop filePre.length)
         else if imagePre.isPrefixOf l then some (l.drop imagePre.length)
         else none) with
  | none => none
  | some after =>
    match after.takeWhile fileChar, after.dropWhile fileChar with
    | [], _ => none
    | c0 :: cs, rem => some (c0 :: cs, rem)

/-- Fuel-indexed `re.findall` scan: try each position left to right,
resuming after the end of every (non-overlapping) match. -/
def findFilesAux : Nat → List Char → List (List Char)
  | 0, _ => []
  | _ + 1, [] => []
  | fuel + 1, c :: rest =>
    match tryFileAt (c :: rest) with
    | some (cap, rem) => cap :: findFilesAux fuel rem
    | none => findFilesAux fuel rest

/-- `re.findall(r'\[\[(?:File|Image):([^|\]]+)', row_text)`. -/
def findFiles (l : List Char) : List (List Char) := findFilesAux l.length l

/-- Leftmost occurrence of `pat` in `l` (index offset by `i`). -/
def strFindAux (pat : List Char) : List Char → Nat → Option Nat
  | [], i => if pat.isPrefixOf ([] : List Char) then some i else none
  | c :: t, i => if pat.isPrefixOf (c :: t) then some i else strFindAux pat t (i + 1)

/-- Python `str.find(pat, start)`, returning `none` for `-1`. -/
def pyFind (l pat : List Char) (start : Nat) : Option Nat :=
  (strFindAux pat (l.drop start) 0).map (fun j => j + start)

/-- Fuel-indexed split on a literal separator, leftmost-first and
non-overlapping, keeping empty pieces, as `re.split` on a literal does. -/
def splitOnFuel (sep : List Char) : Nat → List Char → List (List Char)
  | 0, l => [l]
  | fuel + 1, l =>
    match strFindAux sep l 0 with
    | none => [l]
    | some i => l.take i :: splitOnFuel sep fuel (l.drop (i + sep.length))

/-- `re.split` on the literal separator `sep`. -/
def splitOnL (l sep : List Char) : List (List Char) := splitOnFuel sep l.length l

/-- Association-list lookup with default: Python `dict.get(k, d)`. -/
def getD : List (String × String) → String → String → String
  | [], _, d => d
  | (a, b) :: t, k, d => if a = k then b else getD t k d

/-- The `WIKI_CODE_TO_ISO` table, in source order. -/
def WIKI_CODE_TO_ISO : List (String × String) :=
  [("A", "AT"), ("B", "BE"), ("BIH", "BA"), ("BG", "BG"), ("HR", "HR"),
   ("CY", "CY"), ("CZ", "CZ"), ("DK", "DK"), ("EST", "EE"), ("FIN", "FI"),
   ("F", "FR"), ("D", "DE"), ("GR", "GR"), ("H", "HU"), ("IS", "IS"),
   ("IRL", "IE"), ("I", "IT"), ("LV", "LV"), ("FL", "LI"), ("LT", "LT"),
   ("L", "LU"), ("M", "MT"), ("MC", "MC"), ("MNE", "ME"), ("NL", "NL"),
   ("NMK", "MK"), ("N", "NO"), ("PL", "PL"), ("P", "PT"), ("RO", "RO"),
   ("RSM", "SM"), ("SRB", "RS"), ("SK", "SK"), ("SLO", "SI"), ("E", "ES"),
   ("S", "SE"), ("CH", "CH"), ("UA", "UA"), ("UK", "GB"), ("V", "VA"),
   ("AND", "AD"), ("AM", "AM"), ("AZ", "AZ"), ("GE", "GE"), ("RUS", "RU"),
   ("TR", "TR"),
   ("AX", "AX"), ("GBA", "GBA"), ("FO", "FO"), ("GBZ", "GBZ"),
   ("GBG", "GBG"), ("GBM", "GBM"), ("GBJ", "GBJ"),
   ("ABH", "ABH"), ("RKS", "XK"), ("TRNC", "TRNC"), ("RSO", "RSO"),
   ("PMR", "PMR")]

/-- The `TERRITORY_NAMES` table, in source order. -/
def TERRITORY_NAMES : List (String × String) :=
  [("AL", "Albania"), ("AD", "Andorra"), ("AT", "Austria"), ("BY", "Belarus"),
   ("BE", "Belgium"), ("BA", "Bosnia and Herzegovina"), ("BG", "Bulgaria"),
   ("HR", "Croatia"), ("CY", "Cyprus"), ("CZ", "Czech Republic"), ("DK", "Denmark"),
   ("EE", "Estonia"), ("FI", "Finland"), ("FR", "France"), ("DE", "Germany"),
   ("GR", "Greece"), ("HU", "Hungary"), ("IS", "Iceland"), ("IE", "Ireland"),
   ("IT", "Italy"), ("LV", "Latvia"), ("LI", "Liechtenstein"), ("LT", "Lithuania"),
   ("LU", "Luxembourg"), ("MT", "Malta"), ("MD", "Moldova"), ("MC", "Monaco"),
   ("ME", "Montenegro"), ("NL", "Netherlands"), ("MK", "North Macedonia"),
   ("NO", "Norway"), ("PL", "Poland"), ("PT", "Portugal"), ("RO", "Romania"),
   ("SM", "San Marino"), ("RS", "Serbia"), ("SK", "Slovakia"), ("SI", "Slovenia"),
   ("ES", "Spain"), ("SE", "Sweden"), ("CH", "Switzerland"), ("UA", "Ukraine"),
   ("GB", "United Kingdom"), ("VA", "Vatican City"),
   ("AM", "Armenia"), ("AZ", "Azerbaijan"), ("GE", "Georgia"), ("RU", "Russia"),
   ("TR", "Turkey"),
   ("AX", "Aland Islands"), ("GBA", "Alderney"), ("FO", "Faroe Islands"),
   ("GBZ", "Gibraltar"), ("GBG", "Guernsey"), ("GBM", "Isle of Man"),
   ("GBJ", "Jersey"),
   ("ABH", "Abkhazia"), ("XK", "Kosovo"), ("TRNC", "Northern Cyprus"),
   ("RSO", "South Ossetia"), ("PMR", "Transnistria")]

/-- One parsed row, the dict returned by `_parse_table_row`. -/
structure PlateEntry where
  wiki_code : String
  iso : String
  name : String
  image_file : String
  sect : String
deriving DecidableEq

/-- The Territory Code Mapper: `WIKI_CODE_TO_ISO.get(wiki_code, wiki_code)`
paired with `TERRITORY_NAMES.get(iso, wiki_code)` (lines 316 and 321). -/
def canonicalize (wiki_code : String) : String × String :=
  (getD WIKI_CODE_TO_ISO wiki_code wiki_code,
   getD TERRITORY_NAMES (getD WIKI_CODE_TO_ISO wiki_code wiki_code) wiki_code)

/-- `_parse_table_row(row_text, section)`.  Note the Python falsiness test
`if not example_image` rejects both a missing candidate and an
empty-after-strip filename. -/
def parse_table_row (row : List Char) (sect : String) : Option PlateEntry :=
  match extractCode row with
  | none => none
  | some codeL =>
    if findFiles row = [] then none
    else
      match pickExample (findFiles row) with
      | none => none
      | some ex =>
        if ex = [] then none
        else
          some { wiki_code := String.mk codeL,
                 iso := getD WIKI_CODE_TO_ISO (String.mk codeL) (String.mk codeL),
                 name := getD TERRITORY_NAMES
                   (getD WIKI_CODE_TO_ISO (String.mk codeL) (String.mk codeL))
                   (String.mk codeL),
                 image_file := "File:" ++ String.mk ex,
                 sect := sect }

/-- The `sections` list of `parse_plate_tables`, in declaration order. -/
def sectionsList : List (String × String) :=
  [("countries", "=== Countries ==="),
   ("transcontinental", "=== Transcontinental countries ==="),
   ("dependent", "=== Dependent territories ==="),
   ("disputed", "=== Disputed territories ===")]

/-- One iteration of the section loop of `parse_plate_tables`: locate the
heading, then the next table-open `\x7b|` and table-close `|\x7d` markers,
slice the body, split on the row separator, drop the header segment and
classify the remaining rows. -/
def parseSection (w : List Char) (section_name header : String) : List PlateEntry :=
  match pyFind w header.data 0 with
  | none => []
  | some start =>
    match pyFind w ("\x7b|".data) start with
    | none => []
    | some ts =>
      match pyFind w ("|\x7d".data) ts with
      | none => []
      | some te =>
        ((splitOnL ((w.take te).drop ts) ("\n|-".data)).drop 1).filterMap
          (fun r => parse_table_row r section_name)

/-- `parse_plate_tables(wikitext)`: accumulate the entries of every section
in declaration order. -/
def parse_plate_tables (wikitext : String) : List PlateEntry :=
  sectionsList.foldl (fun acc p => acc ++ parseSection wikitext.data p.1 p.2) []

set_option maxRecDepth 4000

/-! ## Supporting lemmas -/

/-- The selection loop keeps exactly the first candidate whose stripped
filename the blocklist does not match. -/
theorem pickExample_eq_find (files : List (List Char)) :
    pickExample files = (files.find? (fun f => !is_strip (pyStrip f))).map pyStrip := by
  induction files with
  | nil => rfl
  | cons f rest ih =>
    by_cases h : is_strip (pyStrip f)
    · simp [pickExample, List.find?_cons, h, ih]
    · simp [pickExample, List.find?_cons, h]

/-- If the blocklist matches every stripped candidate, the loop keeps none. -/
theorem pickExample_none_of_all (files : List (List Char))
    (h : ∀ f ∈ files, is_strip (pyStrip f) = true) : pickExample files = none := by
  induction files with
  | nil => rfl
  | cons f rest ih =>
    have hf := h f (by simp)
    simp only [pickExample, hf, if_pos]
    exact ih (fun g hg => h g (by simp [hg]))

/-- A defaulted lookup over a table of non-empty values is non-empty when
the default is. -/
theorem getD_ne_empty (t : List (String × String)) (k d : String)
    (ht : ∀ p ∈ t, p.2 ≠ "") (hd : d ≠ "") : getD t k d ≠ "" := by
  induction t with
  | nil => simpa [getD]
  | cons p rest ih =>
    obtain ⟨a, b⟩ := p
    by_cases hak : a = k
    · simpa [getD, hak] using ht (a, b) (by simp)
    · simp only [getD, hak, if_false]
      exact ih (fun q hq => ht q (by simp [hq]))

/-- Inversion of a successful `_parse_table_row`: the code capture and the
chosen candidate determine every field of the entry. -/
theorem parse_table_row_some (row : List Char) (s : String) (e : PlateEntry)
    (h : parse_table_row row s = some e) :
    ∃ codeL ex, extractCode row = some codeL ∧
      pickExample (findFiles row) = some ex ∧ ex ≠ [] ∧
      e = { wiki_code := String.mk codeL,
            iso := getD WIKI_CODE_TO_ISO (String.mk codeL) (String.mk codeL),
            name := getD TERRITORY_NAMES
              (getD WIKI_CODE_TO_ISO (String.mk codeL) (String.mk codeL))
              (String.mk codeL),
            image_file := "File:" ++ String.mk ex,
            sect := s } := by
  unfold parse_table_row at h
  split at h
  · simp at h
  next codeL hc =>
    split at h
    · simp at h
    next hne =>
      split at h
      · simp at h
      next ex hp =>
        split at h
        · simp at h
        next hex =>
          exact ⟨codeL, ex, hc, hp, hex, (Option.some_inj.mp h).symm⟩

/-- The entry built from a row carries the section label it was given. -/
theorem parse_table_row_sect (row : List Char) (s : String) (e : PlateEntry)
    (h : parse_table_row row s = some e) : e.sect = s := by
  obtain ⟨codeL, ex, _, _, _, he⟩ := parse_table_row_some row s e h
  rw [he]

/-- Accumulating with append from the left is flattening in list order. -/
theorem foldl_append_eq_flatten {α β : Type} (g : α → List β) (L : List α) :
    ∀ acc : List β, L.foldl (fun a p => a ++ g p) acc = acc ++ (L.map g).flatten := by
  induction L with
  | nil => intro acc; simp
  | cons p rest ih => intro acc; simp [ih, List.append_assoc]

/-- The section loop of `parse_plate_tables` produces the concatenation of
the per-section entry lists, in section-declaration order. -/
theorem parse_plate_tables_eq (w : String) :
    parse_plate_tables w
      = (sectionsList.map (fun p => parseSection w.data p.1 p.2)).flatten := by
  unfold parse_plate_tables
  simpa using foldl_append_eq_flatten (fun p => parseSection w.data p.1 p.2) sectionsList []

/-- Every entry a section contributes comes from classifying one of its
row segments. -/
theorem mem_parseSection (w : List Char) (lab hdr : String) (e : PlateEntry)
    (h : e ∈ parseSection w lab hdr) : ∃ r, parse_table_row r lab = some e := by
  unfold parseSection at h
  split at h
  · simp at h
  next start hs =>
    split at h
    · simp at h
    next ts hts =>
      split at h
      · simp at h
      next te hte =>
        obtain ⟨r, _, hr⟩ := List.mem_filterMap.mp h
        exact ⟨r, hr⟩

/-- Entries contributed by a section are tagged with that section's label. -/
theorem parseSection_sect (w : List Char) (lab hdr : String) (e : PlateEntry)
    (h : e ∈ parseSection w lab hdr) : e.sect = lab := by
  obtain ⟨r, hr⟩ := mem_parseSection w lab hdr e h
  exact parse_table_row_sect r lab e hr

/-- A filename captured by the file-reference regex contains no `|` or `]`. -/
theorem tryFileAt_cap_chars (l cap rem : List Char)
    (h : tryFileAt l = some (cap, rem)) : ∀ c ∈ cap, fileChar c = true := by
  unfold tryFileAt at h
  split at h
  · simp at h
  next after hafter =>
    split at h
    · simp at h
    next c0 cs heq =>
      intro c hc
      have h1 : cap = c0 :: cs := by
        have h2 := Option.some_inj.mp h
        exact (congrArg Prod.fst h2).symm
      have h3 : c ∈ after.takeWhile fileChar := by
        rw [heq]; exact h1 ▸ hc
      exact List.mem_takeWhile_imp h3

/-- Every filename produced by the findall scan, at any fuel, contains no
`|` or `]`. -/
theorem mem_findFilesAux_chars :
    ∀ (fuel : Nat) (l f : List Char), f ∈ findFilesAux fuel l →
      ∀ c ∈ f, fileChar c = true := by
  intro fuel
  induction fuel with
  | zero => intro l f h; simp [findFilesAux] at h
  | succ n ih =>
    intro l f h
    cases l with
    | nil => simp [findFilesAux] at h
    | cons a rest =>
      rw [findFilesAux] at h
      cases htf : tryFileAt (a :: rest) with
      | none => rw [htf] at h; exact ih rest f h
      | some pr =>
        obtain ⟨cap, rem⟩ := pr
        rw [htf] at h
        simp only [List.mem_cons] at h
        rcases h with h | h
        · subst h; exact tryFileAt_cap_chars (a :: rest) f rem htf
        · exact ih rem f h

/-- Characters of a stripped string are characters of the original. -/
theorem mem_pyStrip (f : List Char) (c : Char) (h : c ∈ pyStrip f) : c ∈ f := by
  unfold pyStrip at h
  have h1 := List.mem_reverse.mp h
  have h2 := (List.dropWhile_sublist isPyWS).mem h1
  have h3 := List.mem_reverse.mp h2
  exact (List.dropWhile_sublist isPyWS).mem h3

/-- Inversion of a successful code-link match at a fixed position: the
capture is a non-empty run of uppercase ASCII letters. -/
theorem tryCodeAt_some (l code : List Char) (h : tryCodeAt l = some code) :
    code ≠ [] ∧ ∀ ch ∈ code, isAZ ch = true := by
  unfold tryCodeAt at h
  split at h
  · split at h
    · simp at h
    · simp at h
    next a1 a2 b1 rest3 htw hdw =>
      split at h
      · simp at h
      next c0 cs heq =>
        split at h
        · have h1 : code = c0 :: cs := (Option.some_inj.mp h).symm
          subst h1
          refine ⟨by simp, fun ch hch => ?_⟩
          have h3 : ch ∈ rest3.takeWhile isAZ := by rw [heq]; exact hch
          exact List.mem_takeWhile_imp h3
        · simp at h
  · simp at h

/-- The leftmost scan returns the capture of any position at which the
code-link pattern matches the head. -/
theorem extractCode_of_tryCodeAt (l code : List Char) (h : tryCodeAt l = some code) :
    extractCode l = some code := by
  cases l with
  | nil =>
    rw [show tryCodeAt [] = none from by decide] at h
    simp at h
  | cons a rest => simp [extractCode, h]

/-- Soundness of the code extraction: any extracted code was captured by a
successful match, hence is a non-empty uppercase run. -/
theorem extractCode_some (l code : List Char) (h : extractCode l = some code) :
    code ≠ [] ∧ ∀ ch ∈ code, isAZ ch = true := by
  induction l with
  | nil => simp [extractCode] at h
  | cons a rest ih =>
    rw [extractCode] at h
    cases ht : tryCodeAt (a :: rest) with
    | none => rw [ht] at h; exact ih h
    | some c' =>
      rw [ht] at h
      have : c' = code := Option.some_inj.mp h
      exact this ▸ tryCodeAt_some (a :: rest) c' ht

/-! ## Concrete inputs for witnesses and counterexamples -/

/-- The Germany row of the concrete scenario of C3. -/
def germanyRow : List Char :=
  "|| [[Vehicle registration plates of Germany|D]] || [[File:Germany_euroband.png]] || [[File:Germany_license_plate.jpg]]".data

/-- An Austria row whose first candidate is a strip and whose second
survives the blocklist. -/
def austriaRow : List Char :=
  "| [[Vehicle registration plates of Austria|A]] || [[File:Austria_euroband.png]] || [[File:Austria_plate.jpg]]".data

/-- A row with a valid code link whose sole file reference has a
whitespace-only filename. -/
def emptyFileRow : List Char :=
  "[[Vehicle registration plates of Germany|D]] [[File: ]]".data

/-- A row with a valid code link whose sole file reference matches the
blocklist substring `-band.`. -/
def bandOnlyRow : List Char :=
  "| [[Vehicle registration plates of Italy|I]] || [[File:Foo-band.svg]]".data

/-- A header row without a code link but with a file reference. -/
def headerRow : List Char :=
  "! Country !! Code !! [[File:Germany_license_plate.jpg]]".data

/-- A row whose only code-link label contains a lowercase letter and a
digit. -/
def badLabelRow : List Char :=
  "[[Vehicle registration plates of Germany|De1]] [[File:Germany_license_plate.jpg]]".data

/-- A lone well-formed code link. -/
def goodCodeRow : List Char :=
  "[[Vehicle registration plates of Austria|A]]".data

/-- A small article with a Countries section of two data rows and no other
section headings. -/
def tinyArticleStr : String :=
  "intro text\n=== Countries ===\nsome prose\n\x7b|\n! Code !! Example\n|-\n| [[Vehicle registration plates of Austria|A]] || [[File:Austria_plate.jpg]]\n|-\n| [[Vehicle registration plates of Belgium|B]] || [[File:Belgium_plate.jpg]]\n|\x7d\nmore text\n"

/-- The first entry extracted from `tinyArticleStr`. -/
def austriaEntry : PlateEntry :=
  { wiki_code := "A", iso := "AT", name := "Austria",
    image_file := "File:Austria_plate.jpg", sect := "countries" }

/-! ## Claim theorems -/

/-- C1, counterexample: a row with a recognizable code link whose sole file
reference has a whitespace-only filename — the blocklist rejects no
candidate, yet `_parse_table_row` returns nothing, because the Python
falsiness test `if not example_image` also rejects the empty stripped
filename. -/
theorem classify_first_surviving_cex :
    extractCode emptyFileRow = some ("D".data)
    ∧ findFiles emptyFileRow = [" ".data]
    ∧ is_strip (" ".data) = false
    ∧ is_strip (pyStrip (" ".data)) = false
    ∧ parse_table_row emptyFileRow "countries" = none :=
  ⟨by decide, by decide, by decide, by decide, by decide⟩

/-- C1 (amended): for a row with a recognizable code link, if some file
reference survives the blocklist (case-insensitive substring match on the
stripped filename) and the first surviving one strips to a non-empty
filename, the classifier returns exactly that code together with that first
surviving reference, and the chosen reference is judged not to be a strip. -/
theorem classify_first_surviving (row : List Char) (s : String) (c f : List Char)
    (hc : extractCode row = some c)
    (hf : (findFiles row).find? (fun g => !is_strip (pyStrip g)) = some f)
    (hne : pyStrip f ≠ []) :
    parse_table_row row s
      = some { wiki_code := String.mk c,
               iso := getD WIKI_CODE_TO_ISO (String.mk c) (String.mk c),
               name := getD TERRITORY_NAMES
                 (getD WIKI_CODE_TO_ISO (String.mk c) (String.mk c)) (String.mk c),
               image_file := "File:" ++ String.mk (pyStrip f),
               sect := s }
    ∧ is_strip (pyStrip f) = false := by
  have hfind : pickExample (findFiles row) = some (pyStrip f) := by
    rw [pickExample_eq_find, hf]; rfl
  have hmem : ¬ findFiles row = [] := by
    intro h0; rw [h0] at hf; simp at hf
  have hstrip : is_strip (pyStrip f) = false := by
    have h1 := List.find?_some hf
    simpa using h1
  refine ⟨?_, hstrip⟩
  simp only [parse_table_row, hc, hfind, if_neg hmem, if_neg hne]

/-- C1 witness: the amended theorem applied to a concrete Austria row. -/
theorem classify_first_surviving_witness :
    parse_table_row austriaRow "countries"
      = some { wiki_code := String.mk ("A".data),
               iso := getD WIKI_CODE_TO_ISO (String.mk ("A".data)) (String.mk ("A".data)),
               name := getD TERRITORY_NAMES
                 (getD WIKI_CODE_TO_ISO (String.mk ("A".data)) (String.mk ("A".data)))
                 (String.mk ("A".data)),
               image_file := "File:" ++ String.mk (pyStrip ("Austria_plate.jpg".data)),
               sect := "countries" }
    ∧ is_strip (pyStrip ("Austria_plate.jpg".data)) = false :=
  classify_first_surviving austriaRow "countries" ("A".data) ("Austria_plate.jpg".data)
    (by decide) (by decide) (by decide)

/-- C2: when the blocklist matches every file reference of a row
(case-insensitively, on the stripped filename), the classifier returns
nothing and no entry is produced. -/
theorem classify_all_rejected (row : List Char) (s : String)
    (h : ∀ f ∈ findFiles row, is_strip (pyStrip f) = true) :
    parse_table_row row s = none := by
  have hp := pickExample_none_of_all (findFiles row) h
  cases hc : extractCode row with
  | none => simp only [parse_table_row, hc]
  | some codeL =>
    by_cases hemp : findFiles row = []
    · simp [parse_table_row, hc, hemp]
    · simp only [parse_table_row, hc, hp, if_neg hemp]

/-- C2 witness: a row whose valid code link is accompanied only by
`[[File:Foo-band.svg]]` yields no entry. -/
theorem classify_all_rejected_witness :
    parse_table_row bandOnlyRow "countries" = none :=
  classify_all_rejected bandOnlyRow "countries" (by decide)

/-- C3: on the concrete Germany row the classifier returns code `D` and
image reference `File:Germany_license_plate.jpg`; the euroband candidate is
excluded and the plate image is the first surviving candidate. -/
theorem classify_germany_row :
    (parse_table_row germanyRow "countries").map (fun e => (e.wiki_code, e.image_file))
      = some ("D", "File:Germany_license_plate.jpg") := by decide

/-- C4: the extractor is deterministic, and its output is the concatenation
of the per-section entry lists in section-declaration order, each section
preserving its in-table row order via `filterMap` over the row segments. -/
theorem extract_deterministic_ordered (w : String) :
    parse_plate_tables w = parse_plate_tables w
    ∧ parse_plate_tables w
        = (sectionsList.map (fun p => parseSection w.data p.1 p.2)).flatten :=
  ⟨rfl, parse_plate_tables_eq w⟩

/-- C5: territory-code canonicalization is total and non-empty on non-empty
codes, maps `UK` to `GB`/`United Kingdom`, maps unmapped `XYZ` to itself by
the identity/code fallbacks, and is exactly what `_parse_table_row` stores
in each produced entry. -/
theorem canonicalize_total :
    (∀ c : String, c ≠ "" → (canonicalize c).1 ≠ "" ∧ (canonicalize c).2 ≠ "")
    ∧ canonicalize "UK" = ("GB", "United Kingdom")
    ∧ canonicalize "XYZ" = ("XYZ", "XYZ")
    ∧ (∀ row s e, parse_table_row row s = some e →
        e.iso = (canonicalize e.wiki_code).1 ∧ e.name = (canonicalize e.wiki_code).2) := by
  refine ⟨?_, by decide, by decide, ?_⟩
  · intro c hc
    have h1 : ∀ p ∈ WIKI_CODE_TO_ISO, p.2 ≠ "" := by decide
    have h2 : ∀ p ∈ TERRITORY_NAMES, p.2 ≠ "" := by decide
    exact ⟨getD_ne_empty WIKI_CODE_TO_ISO c c h1 hc,
           getD_ne_empty TERRITORY_NAMES (getD WIKI_CODE_TO_ISO c c) c h2 hc⟩
  · intro row s e h
    obtain ⟨codeL, ex, hc, hp, hex, he⟩ := parse_table_row_some row s e h
    subst he
    exact ⟨rfl, rfl⟩

/-- C5 witness: canonicalizing the non-empty code `UA` yields non-empty
results. -/
theorem canonicalize_total_witness :
    (canonicalize "UA").1 ≠ "" ∧ (canonicalize "UA").2 ≠ "" :=
  canonicalize_total.1 "UA" (by decide)

/-- C6: a row whose markup does not match the code-link pattern yields no
entry, regardless of the file references it contains. -/
theorem classify_no_code (row : List Char) (s : String)
    (h : extractCode row = none) : parse_table_row row s = none := by
  unfold parse_table_row
  rw [h]

/-- C6 witness: a header row carrying a plate image but no code link yields
no entry. -/
theorem classify_no_code_witness :
    parse_table_row headerRow "countries" = none :=
  classify_no_code headerRow "countries" (by decide)

/-- C7: for a section heading found in the markup, the extractor slices
between the next table-open marker after the heading and the next
table-close marker after that, splits the slice on the row-separator
marker, discards the first (header) segment and classifies the remaining
segments; if either marker is missing the section is skipped. -/
theorem section_table_slicing (w : List Char) (lab hdr : String) :
    (∀ i, pyFind w hdr.data 0 = some i →
      pyFind w ("\x7b|".data) i = none → parseSection w lab hdr = [])
    ∧ (∀ i ts, pyFind w hdr.data 0 = some i →
        pyFind w ("\x7b|".data) i = some ts →
        pyFind w ("|\x7d".data) ts = none → parseSection w lab hdr = [])
    ∧ (∀ i ts te, pyFind w hdr.data 0 = some i →
        pyFind w ("\x7b|".data) i = some ts →
        pyFind w ("|\x7d".data) ts = some te →
        parseSection w lab hdr
          = ((splitOnL ((w.take te).drop ts) ("\n|-".data)).drop 1).filterMap
              (fun r => parse_table_row r lab)) := by
  refine ⟨?_, ?_, ?_⟩
  · intro i h1 h2
    simp only [parseSection, h1, h2]
  · intro i ts h1 h2 h3
    simp only [parseSection, h1, h2, h3]
  · intro i ts te h1 h2 h3
    simp only [parseSection, h1, h2, h3]

/-- C7 witness: the slicing equation instantiated on a small article whose
Countries table sits between marker positions 40 and 221. -/
theorem section_table_slicing_witness :
    parseSection tinyArticleStr.data "countries" "=== Countries ==="
      = ((splitOnL ((tinyArticleStr.data.take 221).drop 40) ("\n|-".data)).drop 1).filterMap
          (fun r => parse_table_row r "countries") :=
  (section_table_slicing tinyArticleStr.data "countries" "=== Countries ===").2.2
    11 40 221 (by decide) (by decide) (by decide)

/-- Flattening a mapped list ignores the members the function sends to
`[]`, so they can be filtered away. -/
theorem flatten_map_filter_of_nil {α β : Type} (g : α → List β) (q : α → Bool)
    (L : List α) (h : ∀ p ∈ L, q p = false → g p = []) :
    (L.map g).flatten = ((L.filter q).map g).flatten := by
  induction L with
  | nil => rfl
  | cons a t ih =>
    have ht := ih (fun p hp hq => h p (by simp [hp]) hq)
    cases hq : q a
    · simp [List.filter, hq, h a (by simp) hq, ht]
    · simp [List.filter, hq, ht]

/-- The configured section labels are pairwise distinct: a label determines
its heading. -/
theorem sectionsList_labels_distinct :
    ∀ p ∈ sectionsList, ∀ q ∈ sectionsList, p.1 = q.1 → p.2 = q.2 := by decide

/-- C8: if a configured section heading is absent from the article markup,
that section contributes zero entries, the output equals the concatenation
of the remaining sections' entries (which are unaffected), and no entry is
tagged with that section's label; in particular an article missing the
Disputed-territories heading still yields the other three sections'
entries. -/
theorem missing_section_skipped (w : String) (lab hdr : String)
    (hmem : (lab, hdr) ∈ sectionsList)
    (h : pyFind w.data hdr.data 0 = none) :
    parseSection w.data lab hdr = []
    ∧ parse_plate_tables w
        = ((sectionsList.filter (fun p => p.2 != hdr)).map
            (fun p => parseSection w.data p.1 p.2)).flatten
    ∧ ∀ e ∈ parse_plate_tables w, e.sect ≠ lab := by
  have hsec : ∀ lab' : String, parseSection w.data lab' hdr = [] := by
    intro lab'
    simp only [parseSection, h]
  have heq : parse_plate_tables w
      = ((sectionsList.filter (fun p => p.2 != hdr)).map
          (fun p => parseSection w.data p.1 p.2)).flatten := by
    rw [parse_plate_tables_eq]
    refine flatten_map_filter_of_nil (fun p => parseSection w.data p.1 p.2)
      (fun p => p.2 != hdr) sectionsList (fun p hp hq => ?_)
    have hph : p.2 = hdr := by simpa using hq
    show parseSection w.data p.1 p.2 = []
    rw [hph]
    exact hsec p.1
  refine ⟨hsec lab, heq, ?_⟩
  intro e he hlab
  rw [parse_plate_tables_eq] at he
  obtain ⟨l, hl, hel⟩ := List.mem_flatten.mp he
  obtain ⟨p, hp, hpl⟩ := List.mem_map.mp hl
  subst hpl
  have hsect : e.sect = p.1 := parseSection_sect w.data p.1 p.2 e hel
  have hp1 : p.1 = lab := by rw [← hsect, hlab]
  have hp2 : p.2 = hdr :=
    sectionsList_labels_distinct p hp (lab, hdr) hmem hp1
  rw [hp2, hsec p.1] at hel
  simp at hel

/-- C8 witness: the small article has no Disputed-territories heading, so
that section contributes nothing, the entries are exactly those of the
remaining sections, and none is tagged `disputed`. -/
theorem missing_section_skipped_witness :
    parseSection tinyArticleStr.data "disputed" "=== Disputed territories ===" = []
    ∧ parse_plate_tables tinyArticleStr
        = ((sectionsList.filter (fun p => p.2 != "=== Disputed territories ===")).map
            (fun p => parseSection tinyArticleStr.data p.1 p.2)).flatten
    ∧ ∀ e ∈ parse_plate_tables tinyArticleStr, e.sect ≠ "disputed" :=
  missing_section_skipped tinyArticleStr "disputed" "=== Disputed territories ==="
    (by decide) (by decide)

/-- C9: every extracted entry's image reference is `File:` followed by a
captured filename with surrounding whitespace stripped and containing no
`|` or `]` characters; both `File:` and `Image:` references in the source
markup end up with the `File:` prefix in the output. -/
theorem extraction_image_invariant (w : String) (e : PlateEntry)
    (h : e ∈ parse_plate_tables w) :
    ∃ g : List Char, e.image_file = "File:" ++ String.mk (pyStrip g)
      ∧ ∀ c ∈ pyStrip g, c ≠ '|' ∧ c ≠ ']' := by
  rw [parse_plate_tables_eq] at h
  obtain ⟨l, hl, hel⟩ := List.mem_flatten.mp h
  obtain ⟨p, hp, hpl⟩ := List.mem_map.mp hl
  subst hpl
  obtain ⟨r, hr⟩ := mem_parseSection w.data p.1 p.2 e hel
  obtain ⟨codeL, ex, hc, hpick, hex, he⟩ := parse_table_row_some r p.1 e hr
  rw [pickExample_eq_find] at hpick
  cases hf : (findFiles r).find? (fun ff => !is_strip (pyStrip ff)) with
  | none => rw [hf] at hpick; simp at hpick
  | some f =>
    rw [hf] at hpick
    have hexf : ex = pyStrip f := by simpa using hpick.symm
    refine ⟨f, ?_, ?_⟩
    · rw [he, hexf]
    · intro c hc2
      have hmem : f ∈ findFilesAux r.length r := List.mem_of_find?_eq_some hf
      have hchar := mem_findFilesAux_chars r.length r f hmem c (mem_pyStrip f c hc2)
      simpa [fileChar, Bool.and_eq_true] using hchar

/-- C9 witness: the Austria entry extracted from the small article. -/
theorem extraction_image_invariant_witness :
    ∃ g : List Char, austriaEntry.image_file = "File:" ++ String.mk (pyStrip g)
      ∧ ∀ c ∈ pyStrip g, c ≠ '|' ∧ c ≠ ']' :=
  extraction_image_invariant tinyArticleStr austriaEntry (by decide)

/-- C10: every extracted territory code is a non-empty run of uppercase
ASCII letters; a match at a position is returned when the left-to-right
scan reaches it, so the leftmost matching code link supplies the code; a
row whose only label contains lowercase letters or digits yields no code
and no entry. -/
theorem code_pattern_uppercase :
    (∀ l code, extractCode l = some code →
      code ≠ [] ∧ ∀ ch ∈ code, ('A' ≤ ch ∧ ch ≤ 'Z'))
    ∧ (∀ l code, tryCodeAt l = some code → extractCode l = some code)
    ∧ extractCode badLabelRow = none
    ∧ parse_table_row badLabelRow "countries" = none := by
  refine ⟨?_, extractCode_of_tryCodeAt, by decide, by decide⟩
  intro l code h
  obtain ⟨h1, h2⟩ := extractCode_some l code h
  refine ⟨h1, fun ch hch => ?_⟩
  have h3 := h2 ch hch
  simpa [isAZ, Bool.and_eq_true, decide_eq_true_eq] using h3

/-- C10 witness: soundness instantiated at a well-formed Austria code link. -/
theorem code_pattern_uppercase_witness :
    ("A".data ≠ ([] : List Char)) ∧ ∀ ch ∈ "A".data, ('A' ≤ ch ∧ ch ≤ 'Z') :=
  code_pattern_uppercase.1 goodCodeRow ("A".data) (by decide)
